import Mathlib

/-!
Verification development for the jasmin-cloud generic REST resource-client
core (`jasmin_cloud/provider/openstack/api/core.py` and
`jasmin_cloud/provider/cluster_engine/awx/api.py`).

The Python code is shallowly embedded: JSON response bodies become an
inductive `Json` type, Python dicts become association lists with
first-occurrence lookup and in-place `update` semantics, Python exceptions
become an explicit `PyErr` error type threaded through `Except`, and the
external HTTP transport is abstracted as explicit response data passed to
the embedded functions.
-/

/-- JSON-like values, modelling the bodies returned by `response.json()`.
Objects keep their fields in insertion order, as Python dicts do. -/
inductive Json where
  | null : Json
  | bool (b : Bool) : Json
  | num (n : Int) : Json
  | str (s : String) : Json
  | arr (elems : List Json) : Json
  | obj (fields : List (String × Json)) : Json

/-- First-occurrence lookup in a string-keyed association list (Python
dict indexing finds the unique binding; for assoc lists we take the
first). -/
def lookupAssoc {α : Type} : List (String × α) → String → Option α
  | [], _ => none
  | (k, v) :: rest, key => if k = key then some v else lookupAssoc rest key

/-- Python dict assignment / `dict.update(key = v)` on an assoc list:
replace the value at an existing key in place, or append the binding when
the key is new. -/
def updateAssoc {α : Type} : List (String × α) → String → α → List (String × α)
  | [], key, v => [(key, v)]
  | (k, w) :: rest, key, v =>
      if k = key then (key, v) :: rest else (k, w) :: updateAssoc rest key v

/-- Lookup of a key in a JSON object's field list. -/
def lookupField (fields : List (String × Json)) (key : String) : Option Json :=
  lookupAssoc fields key

/-- Python exceptions that the embedded code can raise. -/
inductive PyErr where
  | keyError (key : String)
  | typeError
  | attributeError (name : String)
  | runtimeError (msg : String)
  | apiError (status : Nat)
deriving DecidableEq, Repr

/-- Python `obj[key]` on a JSON value: KeyError when the key is absent from
an object, TypeError when indexing a non-object with a string key. -/
def Json.getItem : Json → String → Except PyErr Json
  | .obj fields, key =>
      match lookupField fields key with
      | some v => .ok v
      | none => .error (.keyError key)
  | _, _ => .error .typeError

/-- Python `dict.get(key)` (default `None`): `none` when the key is absent
or the value is not an object. -/
def Json.get : Json → String → Option Json
  | .obj fields, key => lookupField fields key
  | _, _ => none

/-- Python truthiness of a JSON value (`if x:`). -/
def Json.truthy : Json → Bool
  | .null => false
  | .bool b => b
  | .num n => n != 0
  | .str s => s != ""
  | .arr elems => !elems.isEmpty
  | .obj fields => !fields.isEmpty

/-- Python `dict.update(key = v)` on a JSON object's field list. -/
def updateField (fields : List (String × Json)) (key : String) (v : Json) :
    List (String × Json) :=
  updateAssoc fields key v

/-! ## AuthParams (core.py lines 19-66) -/

/-- Builder object for setting authentication parameters
(`AuthParams.__init__`: wraps a dict of top-level auth-request keys). -/
structure AuthParams where
  params : List (String × Json)

/-- Python `AuthParams()` with no arguments: an empty params dict. -/
def AuthParams.empty : AuthParams := ⟨[]⟩

/-- The `identity` sub-tree written by `use_token`. -/
def tokenIdentity (token : String) : Json :=
  .obj [("methods", .arr [.str "token"]),
        ("token", .obj [("id", .str token)])]

/-- The `identity` sub-tree written by `use_password`. -/
def passwordIdentity (domain username password : String) : Json :=
  .obj [("methods", .arr [.str "password"]),
        ("password", .obj [("user", .obj
          [("domain", .obj [("name", .str domain)]),
           ("name", .str username),
           ("password", .str password)])])]

/-- The `scope` sub-tree written by `use_project_id`. -/
def projectScope (project_id : String) : Json :=
  .obj [("project", .obj [("id", .str project_id)])]

/-- AuthParams.use_token: copy the params and replace the `identity`
top-level sub-tree with a token identity, returning a new instance. -/
def AuthParams.use_token (p : AuthParams) (token : String) : AuthParams :=
  ⟨updateField p.params "identity" (tokenIdentity token)⟩

/-- AuthParams.use_password: copy the params and replace the `identity`
top-level sub-tree with a password identity, returning a new instance. -/
def AuthParams.use_password (p : AuthParams) (domain username password : String) : AuthParams :=
  ⟨updateField p.params "identity" (passwordIdentity domain username password)⟩

/-- AuthParams.use_project_id: copy the params and replace the `scope`
top-level sub-tree with a project scope, returning a new instance. -/
def AuthParams.use_project_id (p : AuthParams) (project_id : String) : AuthParams :=
  ⟨updateField p.params "scope" (projectScope project_id)⟩

/-- AuthParams.as_dict: return (a copy of) the accumulated params. -/
def AuthParams.as_dict (p : AuthParams) : List (String × Json) := p.params

/-! ## ResourceOptions key derivation (core.py lines 156-178) -/

/-- Python `s.strip(c)`: remove all leading and trailing occurrences of the
character `c`. -/
def stripChar (s : String) (c : Char) : String :=
  String.mk (((s.toList.dropWhile (· = c)).reverse.dropWhile (· = c)).reverse)

/-- The options dict passed to `ResourceOptions.__init__`, restricted to
the keys the derivation logic reads and writes. `none` models the key
being absent from the dict. -/
structure OptionsDict where
  endpoint : Option String
  resource_list_key : Option String
  resource_links_key : Option String
  resource_key : Option String
deriving DecidableEq, Repr

/-- ResourceOptions.__init__: when an endpoint is declared (and truthy),
derive default values for the three response keys, never overriding a key
already present in the options dict. The list key is derived first and the
other two read the (possibly just-derived) current value. -/
def ResourceOptions.derive (o : OptionsDict) : OptionsDict :=
  match o.endpoint with
  | none => o
  | some ep =>
      if ep = "" then o
      else
        let o1 := if o.resource_list_key.isNone
          then { o with resource_list_key := some (stripChar ep '/') } else o
        let lk1 := match o1.resource_list_key with | some s => s | none => ""
        let o2 := if o1.resource_links_key.isNone
          then { o1 with resource_links_key := some (lk1 ++ "_links") } else o1
        if o2.resource_key.isNone
          then { o2 with resource_key := some (lk1.dropRight 1) } else o2

/-! ## Service path templating (core.py lines 324-330) -/

/-- Left-to-right, non-overlapping replacement of every occurrence of a
non-empty pattern in a character list. The fuel argument makes the
recursion structural; one unit is consumed per examined character, so fuel
equal to the list's length always suffices. -/
def replacePat (pat repl : List Char) : Nat → List Char → List Char
  | _, [] => []
  | 0, l => l
  | fuel + 1, c :: cs =>
      if pat.isPrefixOf (c :: cs) then
        repl ++ replacePat pat repl fuel (List.drop (pat.length - 1) cs)
      else
        c :: replacePat pat repl fuel cs

/-- Python `template.format(project_id = pid)` for templates whose only
placeholder is `{project_id}`; `str.format` renders the Python value
`None` as the text "None". -/
def formatProjectId (template : String) (project_id : Option String) : String :=
  String.mk (replacePat "{project_id}".toList
    (match project_id with | some s => s.toList | none => "None".toList)
    template.toList.length template.toList)

/-- Service.__init__: when the class-level path prefix template is truthy
(non-empty), template the session auth's project id into it; an unscoped
connection has `project_id = None`. No check rejects a missing project id. -/
def Service.init_path (template : String) (project_id : Option String) : String :=
  if template = "" then template else formatProjectId template project_id

/-! ## List and single-entity extraction (core.py lines 112-132, awx/api.py lines 16-18) -/

/-- The generator scan in the OpenStack `ResourceManager.extract_list`:
`next((link['href'] for link in links if link['rel'] == 'next'), None)`.
Links before and including the first match have `rel` (and, on the match,
`href`) accessed, so a malformed link there raises; links after the first
match are never evaluated (the generator is lazy). A `rel` that is not the
string "next" (including non-string values) simply fails the filter. -/
def scanLinks : List Json → Except PyErr (Option Json)
  | [] => .ok none
  | link :: rest =>
      match link.getItem "rel" with
      | .error e => .error e
      | .ok rel =>
          match rel with
          | .str s =>
              if s = "next" then
                match link.getItem "href" with
                | .error e => .error e
                | .ok href => .ok (some href)
              else scanLinks rest
          | _ => scanLinks rest

/-- Python `json.get(links_key, [])` followed by iteration: absent key
iterates the empty default; a present non-array value cannot be iterated
as a sequence of links (modelled as a TypeError). -/
def getLinks (body : Json) (links_key : String) : Except PyErr (List Json) :=
  match body.get links_key with
  | none => .ok []
  | some (.arr elems) => .ok elems
  | some _ => .error .typeError

/-- OpenStack ResourceManager.extract_list: the list body is
`json[resource_list_key]` (KeyError when absent), the next URL is the
`href` of the first link under `resource_links_key` whose `rel` is "next",
or None when the links key is absent or no link matches. -/
def ResourceManager.extract_list (list_key links_key : String) (body : Json) :
    Except PyErr (Json × Option Json) :=
  match body.getItem list_key with
  | .error e => .error e
  | .ok data =>
      match getLinks body links_key with
      | .error e => .error e
      | .ok links =>
          match scanLinks links with
          | .error e => .error e
          | .ok next_url => .ok (data, next_url)

/-- AWX ResourceManager.extract_list: `json["results"], json.get("next")`. -/
def AwxResourceManager.extract_list (body : Json) : Except PyErr (Json × Option Json) :=
  match body.getItem "results" with
  | .error e => .error e
  | .ok results => .ok (results, body.get "next")

/-- OpenStack ResourceManager.extract_one: when the resource type declares
a (truthy) resource_key, unwrap the body at that key (KeyError when
absent); otherwise the body itself is the entity. -/
def ResourceManager.extract_one (resource_key : Option String) (body : Json) :
    Except PyErr Json :=
  match resource_key with
  | some key => if key = "" then .ok body else body.getItem key
  | none => .ok body

/-! ## Error-message extraction (core.py lines 332-356) -/

mutual

/-- Service._find_message: on a dict, return the value at key "message"
when present (even when falsy — the caller filters); otherwise scan the
dict's values in order; on any non-dict value return None. Arrays are not
descended into. -/
def find_message : Json → Option Json
  | .obj fields =>
      match lookupField fields "message" with
      | some v => some v
      | none => findMessageInValues fields
  | _ => none

/-- The `for item in obj.values()` loop of Service._find_message: a falsy
message found in a value is discarded and the scan continues. -/
def findMessageInValues : List (String × Json) → Option Json
  | [] => none
  | (_, v) :: rest =>
      match find_message v with
      | some m => if m.truthy then some m else findMessageInValues rest
      | none => findMessageInValues rest

end

/-- An HTTP response as seen by extract_error_message: its raw text and
the result of `response.json()` (`none` models a JSONDecodeError). -/
structure HttpResponse where
  text : String
  jsonBody : Option Json

/-- Service.extract_error_message: raw text when the body does not parse
as JSON; otherwise `find_message(json) or response.text` — the found
message when truthy, the raw text otherwise. -/
def Service.extract_error_message (response : HttpResponse) : Json :=
  match response.jsonBody with
  | none => .str response.text
  | some j =>
      match find_message j with
      | some m => if m.truthy then m else .str response.text
      | none => .str response.text

/-! ## Cross-service related-manager resolution (core.py lines 97-110) -/

/-- A Service as seen by related_manager: `root_manager(resource_cls)`
returns the root manager for a resource class, or None. Managers are
identified here by an opaque name. -/
structure ServiceModel where
  root_managers : List (String × String)

/-- The root Connection as seen by related_manager (`connection.session.auth`):
its named service accessors. `getattr` on a name not present raises
AttributeError. -/
structure ConnectionModel where
  service_attrs : List (String × ServiceModel)

/-- Python `catalog_type.replace('-', '_')`: for a single-character
pattern and replacement this is a character-wise map. -/
def normalizeServiceName (catalog_type : String) : String :=
  String.mk (catalog_type.toList.map (fun c => if c = '-' then '_' else c))

/-- ResourceManager.related_manager: read the target resource type's
catalog type, derive the service accessor name by replacing "-" with "_",
look that accessor up on the root Connection (AttributeError when absent),
then ask that service for the target's root manager; a missing root
manager raises RuntimeError. -/
def ResourceManager.related_manager (conn : ConnectionModel)
    (target_catalog_type target_cls : String) : Except PyErr String :=
  let service_name := normalizeServiceName target_catalog_type
  match lookupAssoc conn.service_attrs service_name with
  | none => .error (.attributeError service_name)
  | some service =>
      match lookupAssoc service.root_managers target_cls with
      | some root => .ok root
      | none => .error (.runtimeError "Unable to locate manager for embedded resource")

/-! ## Connection construction, catalog parsing, scoping (core.py lines 219-287) -/

/-- Python `s.rstrip(c)`: remove all trailing occurrences of `c`. -/
def rstripChar (s : String) (c : Char) : String :=
  String.mk ((s.toList.reverse.dropWhile (· = c)).reverse)

/-- Split a character list at the first occurrence of a pattern, returning
the parts before and after it, or `none` when the pattern does not occur. -/
def splitFirst (pat : List Char) : List Char → Option (List Char × List Char)
  | [] => none
  | c :: cs =>
      if pat.isPrefixOf (c :: cs) then some ([], (c :: cs).drop pat.length)
      else
        match splitFirst pat cs with
        | some (pre, post) => some (c :: pre, post)
        | none => none

/-- Python `urlsplit(url)._replace(path = '').geturl()` for absolute URLs
of the form `scheme://netloc[/path][?query][#fragment]`: the path
component is dropped, while scheme, network location, query and fragment
are kept. URLs without a scheme separator are outside the modelled shape
and returned unchanged. -/
def stripUrlPath (url : String) : String :=
  match splitFirst "://".toList url.toList with
  | some (scheme, rest) =>
      let netloc := rest.takeWhile (fun c => c != '/' && c != '?' && c != '#')
      let afterPath := (rest.drop netloc.length).dropWhile (fun c => c != '?' && c != '#')
      String.mk (scheme ++ "://".toList ++ netloc ++ afterPath)
  | none => url

/-- The inner generator of the catalog loop:
`next(ep['url'] for ep in entry['endpoints'] if ep['interface'] == interface)`
with the surrounding `except StopIteration: continue` modelled as `none`.
Each scanned endpoint has `interface` accessed (KeyError when absent); a
non-string interface fails the equality filter. -/
def findInterfaceUrl (interface : String) : List Json → Except PyErr (Option Json)
  | [] => .ok none
  | ep :: rest =>
      match ep.getItem "interface" with
      | .error e => .error e
      | .ok i =>
          match i with
          | .str s =>
              if s = interface then
                match ep.getItem "url" with
                | .error e => .error e
                | .ok url => .ok (some url)
              else findInterfaceUrl interface rest
          | _ => findInterfaceUrl interface rest

/-- The catalog loop of Connection.__init__: for each entry, find the
endpoint URL on the configured interface; entries with no match are
skipped; otherwise store the path-stripped URL keyed by the entry's type
(later entries of the same type overwrite, as dict assignment does).
Non-array `endpoints` values and non-string types or URLs are outside the
iterable/indexable shapes the Python accepts and are modelled as
TypeError. -/
def extractEndpoints (interface : String) :
    List Json → List (String × String) → Except PyErr (List (String × String))
  | [], acc => .ok acc
  | entry :: rest, acc =>
      match entry.getItem "endpoints" with
      | .error e => .error e
      | .ok (.arr epList) =>
          match findInterfaceUrl interface epList with
          | .error e => .error e
          | .ok none => extractEndpoints interface rest acc
          | .ok (some url) =>
              match entry.getItem "type" with
              | .error e => .error e
              | .ok t =>
                  match t, url with
                  | .str ts, .str us =>
                      extractEndpoints interface rest (updateAssoc acc ts (stripUrlPath us))
                  | _, _ => .error .typeError
      | .ok _ => .error .typeError

/-- The response of the authentication POST as Connection.__init__ reads
it: the `X-Subject-Token` header value and the parsed JSON body. -/
structure AuthResponse where
  subject_token : String
  body : Json

/-- A fully-constructed Connection's state: the stored constructor
arguments plus everything the successful handshake populates. -/
structure ConnectionState where
  auth_url : String
  params : AuthParams
  interface : String
  verify : Bool
  token : String
  username : Json
  project_id : Option Json
  endpoints : List (String × String)

/-- Outcome of Connection.__init__: either a fully-populated connection,
or a propagated error together with whether the session was closed before
re-raising. -/
inductive InitResult where
  | ok (conn : ConnectionState)
  | failed (err : PyErr) (session_closed : Bool)

/-- Python `x.get(key)` where `x` must be a dict (`.get` on a non-dict
raises AttributeError). -/
def Json.attrGet (j : Json) (key : String) : Except PyErr (Option Json) :=
  match j with
  | .obj fields => .ok (lookupField fields key)
  | _ => .error (.attributeError "get")

/-- Connection.__init__: store auth_url (right-stripped of "/"), params,
interface and verify; issue the authentication POST (abstracted as the
`response` argument). On rackit.ApiError the session is closed and the
same error re-raised; on success the token comes from the X-Subject-Token
header, username from `json['token']['user']['name']`, project_id from
`json['token'].get('project', {}).get('id')`, and endpoints from the
catalog on the configured interface. -/
def Connection.init (auth_url : String) (params : AuthParams)
    (interface : String) (verify : Bool)
    (response : Except PyErr AuthResponse) : InitResult :=
  match response with
  | .error e =>
      match e with
      | .apiError s => .failed (.apiError s) true
      | other => .failed other false
  | .ok r =>
      match r.body.getItem "token" with
      | .error e => .failed e false
      | .ok tok =>
          match tok.getItem "user" with
          | .error e => .failed e false
          | .ok user =>
              match user.getItem "name" with
              | .error e => .failed e false
              | .ok name =>
                  match tok.attrGet "project" with
                  | .error e => .failed e false
                  | .ok project =>
                      match (project.getD (.obj [])).attrGet "id" with
                      | .error e => .failed e false
                      | .ok project_id =>
                          match (tok.get "catalog").getD (.arr []) with
                          | .arr entries =>
                              match extractEndpoints interface entries [] with
                              | .error e => .failed e false
                              | .ok endpoints =>
                                  .ok {
                                    auth_url := rstripChar auth_url '/',
                                    params := params,
                                    interface := interface,
                                    verify := verify,
                                    token := r.subject_token,
                                    username := name,
                                    project_id := project_id,
                                    endpoints := endpoints }
                          | _ => .failed .typeError false

/-- The argument of scoped_connection: either a raw project identifier or
a Resource exposing an `id` attribute. -/
inductive ProjectOrId where
  | rawId (id : String)
  | resource (id : String)

/-- The `isinstance(project_or_id, Resource)` branch of scoped_connection:
take `.id` from a Resource, the value itself otherwise. -/
def ProjectOrId.project_id : ProjectOrId → String
  | .rawId i => i
  | .resource i => i

/-- Connection.scoped_connection: build token+project AuthParams from the
current token and the extracted project id, and construct a brand-new
Connection with the parent's auth_url, interface and verify. The new
handshake's response is abstracted as the `response` argument. -/
def Connection.scoped_connection (parent : ConnectionState) (p : ProjectOrId)
    (response : Except PyErr AuthResponse) : InitResult :=
  Connection.init parent.auth_url
    ((AuthParams.empty.use_token parent.token).use_project_id p.project_id)
    parent.interface parent.verify response

/-! ## Specification-side formulations

The following definitions follow the spec's words (rather than the code)
and are compared with the embedded source functions in the theorems. -/

/-- Spec: a link is the pagination link when it is "tagged rel = next". -/
def linkIsNext (link : Json) : Bool :=
  match link.get "rel" with
  | some (.str s) => s == "next"
  | _ => false

/-- Spec: the next URL is the href of the first link tagged rel = "next";
absent when no link matches. -/
def specNextHref (links : List Json) : Option Json :=
  (links.find? linkIsNext).bind (fun link => link.get "href")

/-- Well-formedness of one pagination link as the extraction code accesses
it: a `rel` field is present, and when it is literally "next" an `href`
field is present too. -/
def wfLink (link : Json) : Bool :=
  match link.get "rel" with
  | some (.str s) => if s = "next" then (link.get "href").isSome else true
  | some _ => true
  | none => false

/-- Spec: an endpoint matches when its interface tag equals the configured
interface. -/
def epMatches (interface : String) (ep : Json) : Bool :=
  match ep.get "interface" with
  | some (.str s) => s == interface
  | _ => false

/-- Spec: the URL of the (first) endpoint whose interface tag matches. -/
def firstMatchUrl (interface : String) (eps : List Json) : Option Json :=
  (eps.find? (epMatches interface)).bind (fun ep => ep.get "url")

/-- Whether a catalog entry's service type is the string `t`. -/
def entryHasType (t : String) (entry : Json) : Bool :=
  match entry.get "type" with
  | some (.str s) => s == t
  | _ => false

/-- Spec: what one catalog entry contributes to `endpoints` — the
path-stripped URL of its first matching endpoint, or nothing. -/
def entryMatchUrl (interface : String) (entry : Json) : Option String :=
  match entry.get "endpoints" with
  | some (.arr eps) =>
      match firstMatchUrl interface eps with
      | some (.str u) => some (stripUrlPath u)
      | _ => none
  | _ => none

/-- Well-formedness of one catalog endpoint object as the catalog loop
accesses it: an `interface` field is present, and when it matches the
configured interface a string `url` field is present too. -/
def wfEp (interface : String) (ep : Json) : Bool :=
  match ep.get "interface" with
  | some (.str s) =>
      if s = interface then
        match ep.get "url" with
        | some (.str _) => true
        | _ => false
      else true
  | some _ => true
  | none => false

/-- Well-formedness of one catalog entry: an array `endpoints` field of
well-formed endpoint objects, and a string `type` field. -/
def wfEntry (interface : String) (entry : Json) : Bool :=
  (match entry.get "endpoints" with
   | some (.arr eps) => eps.all (wfEp interface)
   | _ => false) &&
  (match entry.get "type" with
   | some (.str _) => true
   | _ => false)

/-- Spec: whether a catalog entry contributes a binding for service type
`t` — its type is `t` and it has an endpoint matching the interface. -/
def entryContributes (interface t : String) (e : Json) : Bool :=
  entryHasType t e && (entryMatchUrl interface e).isSome

/-! ## Helper lemmas -/

theorem lookupAssoc_updateAssoc_self {α : Type} (l : List (String × α)) (key : String) (v : α) :
    lookupAssoc (updateAssoc l key v) key = some v := by
  induction l with
  | nil => simp [updateAssoc, lookupAssoc]
  | cons hd tl ih =>
      obtain ⟨k, w⟩ := hd
      by_cases h : k = key
      · simp [updateAssoc, h, lookupAssoc]
      · simp [updateAssoc, h, lookupAssoc, ih]

theorem lookupAssoc_updateAssoc_other {α : Type} (l : List (String × α)) (key k : String)
    (v : α) (h : k ≠ key) :
    lookupAssoc (updateAssoc l key v) k = lookupAssoc l k := by
  induction l with
  | nil => simp [updateAssoc, lookupAssoc, Ne.symm h]
  | cons hd tl ih =>
      obtain ⟨k', w⟩ := hd
      by_cases hk : k' = key
      · subst hk
        simp [updateAssoc, lookupAssoc, Ne.symm h]
      · simp [updateAssoc, hk, lookupAssoc, ih]

theorem getItem_of_get {j : Json} {k : String} {v : Json} (h : j.get k = some v) :
    j.getItem k = .ok v := by
  cases j <;> simp_all [Json.get, Json.getItem]

theorem exceptPure (α : Type) (a : α) : (pure a : Except PyErr α) = .ok a := rfl

theorem exceptBindOk (α β : Type) (a : α) (f : α → Except PyErr β) :
    ((Except.ok a : Except PyErr α) >>= f) = f a := rfl

theorem exceptBindErr (α β : Type) (e : PyErr) (f : α → Except PyErr β) :
    ((Except.error e : Except PyErr α) >>= f) = Except.error e := rfl

/-! ## Claim theorems -/

/-- C8: every AuthParams builder operation returns a new AuthParams whose
top-level mapping has the corresponding sub-tree (identity or scope)
replaced while every other previously-set top-level sub-tree is preserved
(the receiver itself is unchanged because the operations are pure
functions of the receiver's copied mapping); a base built via
use_password(...).use_project_id(p) has both identity and scope keys, and
a later use_token(t) on that base replaces identity but leaves scope
untouched. -/
theorem authparams_builder_updates (p : AuthParams) (t d u pw pid : String) :
    (lookupAssoc (p.use_token t).as_dict "identity" = some (tokenIdentity t) ∧
     ∀ k, k ≠ "identity" →
       lookupAssoc (p.use_token t).as_dict k = lookupAssoc p.as_dict k) ∧
    (lookupAssoc (p.use_password d u pw).as_dict "identity" = some (passwordIdentity d u pw) ∧
     ∀ k, k ≠ "identity" →
       lookupAssoc (p.use_password d u pw).as_dict k = lookupAssoc p.as_dict k) ∧
    (lookupAssoc (p.use_project_id pid).as_dict "scope" = some (projectScope pid) ∧
     ∀ k, k ≠ "scope" →
       lookupAssoc (p.use_project_id pid).as_dict k = lookupAssoc p.as_dict k) ∧
    (lookupAssoc ((p.use_password d u pw).use_project_id pid).as_dict "identity" =
       some (passwordIdentity d u pw) ∧
     lookupAssoc ((p.use_password d u pw).use_project_id pid).as_dict "scope" =
       some (projectScope pid) ∧
     lookupAssoc (((p.use_password d u pw).use_project_id pid).use_token t).as_dict "identity" =
       some (tokenIdentity t) ∧
     lookupAssoc (((p.use_password d u pw).use_project_id pid).use_token t).as_dict "scope" =
       some (projectScope pid)) := by
  refine ⟨⟨?_, ?_⟩, ⟨?_, ?_⟩, ⟨?_, ?_⟩, ?_, ?_, ?_, ?_⟩
  · exact lookupAssoc_updateAssoc_self p.params "identity" (tokenIdentity t)
  · intro k hk
    exact lookupAssoc_updateAssoc_other p.params "identity" k (tokenIdentity t) hk
  · exact lookupAssoc_updateAssoc_self p.params "identity" (passwordIdentity d u pw)
  · intro k hk
    exact lookupAssoc_updateAssoc_other p.params "identity" k (passwordIdentity d u pw) hk
  · exact lookupAssoc_updateAssoc_self p.params "scope" (projectScope pid)
  · intro k hk
    exact lookupAssoc_updateAssoc_other p.params "scope" k (projectScope pid) hk
  · rw [show ((p.use_password d u pw).use_project_id pid).as_dict =
        updateAssoc (p.use_password d u pw).as_dict "scope" (projectScope pid) from rfl]
    rw [lookupAssoc_updateAssoc_other _ "scope" "identity" _ (by decide)]
    exact lookupAssoc_updateAssoc_self p.params "identity" (passwordIdentity d u pw)
  · exact lookupAssoc_updateAssoc_self _ "scope" (projectScope pid)
  · exact lookupAssoc_updateAssoc_self _ "identity" (tokenIdentity t)
  · rw [show (((p.use_password d u pw).use_project_id pid).use_token t).as_dict =
        updateAssoc ((p.use_password d u pw).use_project_id pid).as_dict "identity"
          (tokenIdentity t) from rfl]
    rw [lookupAssoc_updateAssoc_other _ "identity" "scope" _ (by decide)]
    exact lookupAssoc_updateAssoc_self _ "scope" (projectScope pid)

/-- Witness for C8 at a concrete base: the password+project base keeps its
scope after a later use_token, and use_token leaves the scope key of an
empty base unchanged. -/
theorem authparams_builder_updates_witness :
    lookupAssoc (((AuthParams.empty.use_password "default" "alice" "pw").use_project_id
        "p1").use_token "tok").as_dict "scope" = some (projectScope "p1") ∧
    lookupAssoc (AuthParams.empty.use_token "tok").as_dict "scope" =
      lookupAssoc AuthParams.empty.as_dict "scope" :=
  ⟨(authparams_builder_updates AuthParams.empty "tok" "default" "alice" "pw" "p1").2.2.2.2.2.2,
   (authparams_builder_updates AuthParams.empty "tok" "default" "alice" "pw" "p1").1.2
     "scope" (by decide)⟩

/-- C7: for options declaring a (truthy) endpoint, the derived defaults
are resource_list_key = endpoint stripped of surrounding slashes,
resource_links_key = resource_list_key + "_links", resource_key =
resource_list_key minus its trailing character; explicitly declared keys
are never overridden; endpoint "/flavors" yields flavors /
flavors_links / flavor. -/
theorem resource_options_key_derivation (o : OptionsDict) (ep : String)
    (he : o.endpoint = some ep) (hne : ep ≠ "") :
    (ResourceOptions.derive o).endpoint = some ep ∧
    (ResourceOptions.derive o).resource_list_key =
      some (o.resource_list_key.getD (stripChar ep '/')) ∧
    (ResourceOptions.derive o).resource_links_key =
      some (o.resource_links_key.getD
        ((o.resource_list_key.getD (stripChar ep '/')) ++ "_links")) ∧
    (ResourceOptions.derive o).resource_key =
      some (o.resource_key.getD
        ((o.resource_list_key.getD (stripChar ep '/')).dropRight 1)) ∧
    ResourceOptions.derive ⟨some "/flavors", none, none, none⟩ =
      ⟨some "/flavors", some "flavors", some "flavors_links", some "flavor"⟩ := by
  obtain ⟨e, lk, lks, rk⟩ := o
  simp only [OptionsDict.mk.injEq] at he ⊢
  cases lk <;> cases lks <;> cases rk <;>
    simp_all [ResourceOptions.derive, hne] <;> decide

/-- Witness for C7 at the flavors example. -/
theorem resource_options_key_derivation_witness :
    (ResourceOptions.derive ⟨some "/flavors", none, none, none⟩).resource_list_key =
      some ((Option.none).getD (stripChar "/flavors" '/')) :=
  (resource_options_key_derivation ⟨some "/flavors", none, none, none⟩ "/flavors"
    rfl (by decide)).2.1

theorem replacePat_isInfix (pat repl : List Char) (hpat : pat ≠ []) :
    ∀ (fuel : Nat) (l : List Char), l.length ≤ fuel → List.IsInfix pat l →
      List.IsInfix repl (replacePat pat repl fuel l) := by
  intro fuel
  induction fuel with
  | zero =>
      intro l hlen hinf
      have hl : l = [] := List.length_eq_zero.mp (Nat.le_zero.mp hlen)
      subst hl
      exact absurd (List.infix_nil.mp hinf) hpat
  | succ fuel ih =>
      intro l hlen hinf
      cases l with
      | nil => exact absurd (List.infix_nil.mp hinf) hpat
      | cons c cs =>
          by_cases hp : pat.isPrefixOf (c :: cs) = true
          · simp only [replacePat, hp, if_true]
            exact (List.prefix_append repl _).isInfix
          · simp only [replacePat, hp, if_false, Bool.false_eq_true]
            obtain ⟨s, t, hst⟩ := hinf
            cases s with
            | nil =>
                exfalso
                apply hp
                rw [List.isPrefixOf_iff_prefix]
                exact ⟨t, by simpa using hst⟩
            | cons c0 s' =>
                simp only [List.cons_append, List.cons.injEq] at hst
                have hcs : List.IsInfix pat cs := ⟨s', t, hst.2⟩
                have hlen' : cs.length ≤ fuel := by
                  simp only [List.length_cons] at hlen
                  omega
                exact List.infix_cons (ih cs hlen' hcs)

/-- C10: a Service built from an unscoped Connection (project_id None)
with a path-prefix template containing the placeholder is constructed
without error (the templating function is total) and the resulting path
prefix contains the literal text "None"; the orchestration template
"/v1/{project_id}" becomes exactly "/v1/None". -/
theorem service_path_templates_missing_project (template : String)
    (h : List.IsInfix "{project_id}".toList template.toList) :
    List.IsInfix "None".toList (Service.init_path template none).toList ∧
    Service.init_path "/v1/{project_id}" none = "/v1/None" := by
  constructor
  · have hne : template ≠ "" := by
      intro he
      subst he
      have h0 : ("{project_id}".toList : List Char) = [] :=
        List.infix_nil.mp h
      exact absurd h0 (by decide)
    have hrw : Service.init_path template none =
        String.mk (replacePat "{project_id}".toList "None".toList
          template.toList.length template.toList) := by
      rw [Service.init_path, if_neg hne]
      rfl
    rw [hrw]
    exact replacePat_isInfix _ _ (by decide) _ _ (le_refl _) h
  · rfl

/-- Witness for C10 at the orchestration service's template. -/
theorem service_path_templates_missing_project_witness :
    List.IsInfix "None".toList (Service.init_path "/v1/{project_id}" none).toList :=
  (service_path_templates_missing_project "/v1/{project_id}"
    ⟨"/v1/".toList, [], by decide⟩).1

/-- C2: related_manager derives the accessor name from the target type's
catalog type with separators normalized, looks it up on the owning root
Connection and takes that service's root manager for the target type;
both failure modes (no such accessor on the Connection, or no root
manager in the service) raise a fatal error rather than returning
silently. -/
theorem related_manager_resolution (conn : ConnectionModel) (ct cls : String) :
    (lookupAssoc conn.service_attrs (normalizeServiceName ct) = none →
      ResourceManager.related_manager conn ct cls =
        .error (.attributeError (normalizeServiceName ct))) ∧
    (∀ svc, lookupAssoc conn.service_attrs (normalizeServiceName ct) = some svc →
      lookupAssoc svc.root_managers cls = none →
      ResourceManager.related_manager conn ct cls =
        .error (.runtimeError "Unable to locate manager for embedded resource")) ∧
    (∀ svc root, lookupAssoc conn.service_attrs (normalizeServiceName ct) = some svc →
      lookupAssoc svc.root_managers cls = some root →
      ResourceManager.related_manager conn ct cls = .ok root) := by
  refine ⟨?_, ?_, ?_⟩
  · intro h
    simp [ResourceManager.related_manager, h]
  · intro svc h1 h2
    simp [ResourceManager.related_manager, h1, h2]
  · intro svc root h1 h2
    simp [ResourceManager.related_manager, h1, h2]

/-- Witness for C2 at a concrete Connection exposing only the volume
service under a normalized accessor name. -/
theorem related_manager_resolution_witness :
    ResourceManager.related_manager
        ⟨[("block_store", ⟨[("Volume", "volumes_manager")]⟩)]⟩ "block-store" "Volume" =
      .ok "volumes_manager" ∧
    ResourceManager.related_manager
        ⟨[("block_store", ⟨[("Volume", "volumes_manager")]⟩)]⟩ "block-store" "Snapshot" =
      .error (.runtimeError "Unable to locate manager for embedded resource") ∧
    ResourceManager.related_manager
        ⟨[("block_store", ⟨[("Volume", "volumes_manager")]⟩)]⟩ "identity" "User" =
      .error (.attributeError "identity") :=
  ⟨(related_manager_resolution ⟨[("block_store", ⟨[("Volume", "volumes_manager")]⟩)]⟩
      "block-store" "Volume").2.2 ⟨[("Volume", "volumes_manager")]⟩ "volumes_manager"
      rfl rfl,
   (related_manager_resolution ⟨[("block_store", ⟨[("Volume", "volumes_manager")]⟩)]⟩
      "block-store" "Snapshot").2.1 ⟨[("Volume", "volumes_manager")]⟩
      rfl rfl,
   (related_manager_resolution ⟨[("block_store", ⟨[("Volume", "volumes_manager")]⟩)]⟩
      "identity" "User").1 rfl⟩

/-- C4 counterexample: a list response whose body lacks the declared
resource_list_key makes extract_list raise the generic KeyError (the
plain key-lookup failure), and likewise extract_one for a body lacking
the declared resource_key — not a distinguishable malformed-envelope
error. -/
theorem missing_envelope_key_cex :
    ResourceManager.extract_list "flavors" "flavors_links" (.obj [("servers", .arr [])]) =
      .error (.keyError "flavors") ∧
    ResourceManager.extract_one (some "flavor") (.obj [("other", .null)]) =
      .error (.keyError "flavor") :=
  ⟨rfl, rfl⟩

/-- C4 amended: when a list response lacks the resource_list_key, or a
single-entity response lacks a declared (non-empty) resource_key, the
extraction operations propagate the ordinary Python KeyError naming the
missing key — a generic key-lookup failure, with no distinguishable
malformed-envelope error type. -/
theorem missing_envelope_key_raises_keyerror (lk lsk rk : String)
    (fields gields : List (String × Json))
    (h1 : lookupAssoc fields lk = none) (hrk : rk ≠ "")
    (h2 : lookupAssoc gields rk = none) :
    ResourceManager.extract_list lk lsk (.obj fields) = .error (.keyError lk) ∧
    ResourceManager.extract_one (some rk) (.obj gields) = .error (.keyError rk) := by
  constructor
  · simp [ResourceManager.extract_list, Json.getItem, lookupField, h1]
  · simp [ResourceManager.extract_one, Json.getItem, lookupField, h2, hrk]

/-- Witness for the amended C4 at concrete bodies lacking the keys. -/
theorem missing_envelope_key_raises_keyerror_witness :
    ResourceManager.extract_list "servers" "servers_links" (.obj [("flavors", .arr [])]) =
      .error (.keyError "servers") ∧
    ResourceManager.extract_one (some "server") (.obj []) = .error (.keyError "server") :=
  missing_envelope_key_raises_keyerror "servers" "servers_links" "server"
    [("flavors", .arr [])] [] rfl (by decide) rfl

theorem scanLinks_eq_specNextHref (links : List Json)
    (hwf : ∀ link ∈ links, wfLink link = true) :
    scanLinks links = .ok (specNextHref links) := by
  induction links with
  | nil => rfl
  | cons link rest ih =>
      have hl : wfLink link = true := hwf link (List.mem_cons_self link rest)
      have hrest : ∀ l ∈ rest, wfLink l = true := fun l hm => hwf l (List.mem_cons_of_mem _ hm)
      cases hrel : link.get "rel" with
      | none => simp [wfLink, hrel] at hl
      | some r =>
          cases r with
          | str s =>
              by_cases hs : s = "next"
              · subst hs
                have hhref : (link.get "href").isSome := by
                  simpa [wfLink, hrel] using hl
                obtain ⟨href, hh⟩ := Option.isSome_iff_exists.mp hhref
                simp [scanLinks, getItem_of_get hrel, getItem_of_get hh,
                      specNextHref, List.find?_cons, linkIsNext, hrel, hh]
              · simp [scanLinks, getItem_of_get hrel, hs, ih hrest,
                      specNextHref, List.find?_cons, linkIsNext, hrel]
          | null =>
              simp [scanLinks, getItem_of_get hrel, ih hrest,
                    specNextHref, List.find?_cons, linkIsNext, hrel]
          | bool b =>
              simp [scanLinks, getItem_of_get hrel, ih hrest,
                    specNextHref, List.find?_cons, linkIsNext, hrel]
          | num n =>
              simp [scanLinks, getItem_of_get hrel, ih hrest,
                    specNextHref, List.find?_cons, linkIsNext, hrel]
          | arr elems =>
              simp [scanLinks, getItem_of_get hrel, ih hrest,
                    specNextHref, List.find?_cons, linkIsNext, hrel]
          | obj ofields =>
              simp [scanLinks, getItem_of_get hrel, ih hrest,
                    specNextHref, List.find?_cons, linkIsNext, hrel]

/-- C1: the OpenStack extract_list returns the entry sequence stored
under the resource type's resource_list_key paired with the href of the
first link under resource_links_key whose rel equals "next" (None when
the links key is absent or no link matches, via specNextHref); the AWX
variant returns the sequence under its "results" key paired with the
envelope's direct "next" field, None when absent. -/
theorem extract_list_envelope (lk lsk : String) (fields : List (String × Json))
    (data : Json) (links : List Json) :
    (lookupAssoc fields lk = some data → lookupAssoc fields lsk = some (.arr links) →
      (∀ link ∈ links, wfLink link = true) →
      ResourceManager.extract_list lk lsk (.obj fields) = .ok (data, specNextHref links)) ∧
    (lookupAssoc fields lk = some data → lookupAssoc fields lsk = none →
      ResourceManager.extract_list lk lsk (.obj fields) = .ok (data, none)) ∧
    (lookupAssoc fields "results" = some data →
      AwxResourceManager.extract_list (.obj fields) = .ok (data, lookupAssoc fields "next")) := by
  refine ⟨?_, ?_, ?_⟩
  · intro h1 h2 h3
    simp [ResourceManager.extract_list, Json.getItem, lookupField, h1, getLinks,
          Json.get, h2, scanLinks_eq_specNextHref links h3]
  · intro h1 h2
    simp [ResourceManager.extract_list, Json.getItem, lookupField, h1, getLinks,
          Json.get, h2, scanLinks]
  · intro h1
    simp [AwxResourceManager.extract_list, Json.getItem, Json.get, lookupField, h1]

/-- Witness for C1 at concrete two-link and AWX envelopes. -/
theorem extract_list_envelope_witness :
    ResourceManager.extract_list "servers" "servers_links"
      (.obj [("servers", .arr [.str "s1"]),
             ("servers_links", .arr
               [.obj [("rel", .str "prev"), ("href", .str "u0")],
                .obj [("rel", .str "next"), ("href", .str "u1")]])]) =
      .ok (.arr [.str "s1"], specNextHref
        [.obj [("rel", .str "prev"), ("href", .str "u0")],
         .obj [("rel", .str "next"), ("href", .str "u1")]]) ∧
    AwxResourceManager.extract_list
      (.obj [("results", .arr [.num 1]), ("next", .str "p2")]) =
      .ok (.arr [.num 1],
        lookupAssoc [("results", Json.arr [.num 1]), ("next", Json.str "p2")] "next") :=
  ⟨(extract_list_envelope "servers" "servers_links"
      [("servers", .arr [.str "s1"]),
       ("servers_links", .arr
         [.obj [("rel", .str "prev"), ("href", .str "u0")],
          .obj [("rel", .str "next"), ("href", .str "u1")]])]
      (.arr [.str "s1"])
      [.obj [("rel", .str "prev"), ("href", .str "u0")],
       .obj [("rel", .str "next"), ("href", .str "u1")]]).1 rfl rfl (by decide),
   (extract_list_envelope "results" "x"
      [("results", .arr [.num 1]), ("next", .str "p2")] (.arr [.num 1]) []).2.2 rfl⟩

theorem findMessageInValues_eq_findSome (fields : List (String × Json)) :
    findMessageInValues fields =
      fields.findSome? (fun kv => (find_message kv.2).filter Json.truthy) := by
  induction fields with
  | nil => simp [findMessageInValues]
  | cons hd tl ih =>
      obtain ⟨k, v⟩ := hd
      cases hfm : find_message v with
      | none => simp [findMessageInValues, hfm, List.findSome?_cons, Option.filter, ih]
      | some m =>
          by_cases ht : m.truthy <;>
            simp [findMessageInValues, hfm, ht, List.findSome?_cons, Option.filter, ih]

/-- C3 counterexample: for the body
{"error": {"message": ""}, "detail": {"message": "real"}} a depth-first
search returning the first field named "message" found (objects scanned
in natural key order) would yield "", but extract_error_message yields
"real" — a falsy message is discarded and the search continues. -/
theorem extract_error_message_first_found_cex :
    Service.extract_error_message ⟨"raw", some (.obj
      [("error", .obj [("message", .str "")]),
       ("detail", .obj [("message", .str "real")])])⟩ = .str "real" ∧
    Json.str "real" ≠ Json.str "" := by
  constructor
  · rfl
  · simp

/-- C3 amended: extract_error_message returns the raw text verbatim when
the body does not parse; when it parses, it searches nested objects only
(arrays are not descended into), where at each object a field literally
named "message" ends that object's search with its value, object values
are otherwise scanned in natural key order, a falsy candidate is
discarded with the scan continuing through later sibling values, and the
first truthy candidate is returned, falling back to the raw text when
none exists; the claim's three examples behave as stated. -/
theorem extract_error_message_search (text : String) (j : Json) (xs : List Json)
    (fields : List (String × Json)) (v : Json) :
    (Service.extract_error_message ⟨text, none⟩ = .str text) ∧
    (Service.extract_error_message ⟨text, some j⟩ =
      ((find_message j).filter Json.truthy).getD (.str text)) ∧
    (find_message (.arr xs) = none) ∧
    (lookupAssoc fields "message" = some v → find_message (.obj fields) = some v) ∧
    (lookupAssoc fields "message" = none →
      find_message (.obj fields) =
        fields.findSome? (fun kv => (find_message kv.2).filter Json.truthy)) ∧
    (Service.extract_error_message ⟨"raw", some (.obj [("error", .obj
        [("code", .num 400), ("message", .str "bad request")])])⟩ = .str "bad request") ∧
    (Service.extract_error_message ⟨"raw", some (.obj [("foo", .obj
        [("bar", .obj [("message", .str "deep")])])])⟩ = .str "deep") ∧
    (Service.extract_error_message ⟨"oops", none⟩ = .str "oops") := by
  refine ⟨rfl, ?_, rfl, ?_, ?_, rfl, rfl, rfl⟩
  · cases hfm : find_message j with
    | none => simp [Service.extract_error_message, hfm, Option.filter]
    | some m =>
        by_cases ht : m.truthy <;>
          simp [Service.extract_error_message, hfm, ht, Option.filter]
  · intro h
    simp [find_message, lookupField, h]
  · intro h
    simp [find_message, lookupField, h, findMessageInValues_eq_findSome]

/-- Witness for the amended C3 at concrete bodies exercising the
message-present and message-absent object branches. -/
theorem extract_error_message_search_witness :
    find_message (.obj [("message", .str "boom")]) = some (.str "boom") ∧
    find_message (.obj [("code", .num 7)]) =
      List.findSome? (fun kv => (find_message kv.2).filter Json.truthy)
        [("code", Json.num 7)] :=
  ⟨((extract_error_message_search "t" .null [] [("message", .str "boom")]
      (.str "boom")).2.2.2.1) rfl,
   ((extract_error_message_search "t" .null [] [("code", .num 7)]
      .null).2.2.2.2.1) rfl⟩

theorem findInterfaceUrl_eq_firstMatch (interface : String) (eps : List Json)
    (hwf : ∀ ep ∈ eps, wfEp interface ep = true) :
    findInterfaceUrl interface eps = .ok (firstMatchUrl interface eps) := by
  induction eps with
  | nil => rfl
  | cons ep rest ih =>
      have he : wfEp interface ep = true := hwf ep (List.mem_cons_self ep rest)
      have hrest : ∀ e ∈ rest, wfEp interface e = true :=
        fun e hm => hwf e (List.mem_cons_of_mem _ hm)
      cases hi : ep.get "interface" with
      | none => simp [wfEp, hi] at he
      | some i =>
          cases i with
          | str s =>
              by_cases hs : s = interface
              · subst hs
                have hurl : ∃ us, ep.get "url" = some (.str us) := by
                  cases hu : ep.get "url" with
                  | none => simp [wfEp, hi, hu] at he
                  | some u =>
                      cases u with
                      | str us => exact ⟨us, rfl⟩
                      | null => simp [wfEp, hi, hu] at he
                      | bool b => simp [wfEp, hi, hu] at he
                      | num n => simp [wfEp, hi, hu] at he
                      | arr a => simp [wfEp, hi, hu] at he
                      | obj f => simp [wfEp, hi, hu] at he
                obtain ⟨us, hu⟩ := hurl
                simp [findInterfaceUrl, getItem_of_get hi, getItem_of_get hu,
                      firstMatchUrl, List.find?_cons, epMatches, hi, hu]
              · simp [findInterfaceUrl, getItem_of_get hi, hs, ih hrest,
                      firstMatchUrl, List.find?_cons, epMatches, hi]
          | null =>
              simp [findInterfaceUrl, getItem_of_get hi, ih hrest,
                    firstMatchUrl, List.find?_cons, epMatches, hi]
          | bool b =>
              simp [findInterfaceUrl, getItem_of_get hi, ih hrest,
                    firstMatchUrl, List.find?_cons, epMatches, hi]
          | num n =>
              simp [findInterfaceUrl, getItem_of_get hi, ih hrest,
                    firstMatchUrl, List.find?_cons, epMatches, hi]
          | arr elems =>
              simp [findInterfaceUrl, getItem_of_get hi, ih hrest,
                    firstMatchUrl, List.find?_cons, epMatches, hi]
          | obj ofields =>
              simp [findInterfaceUrl, getItem_of_get hi, ih hrest,
                    firstMatchUrl, List.find?_cons, epMatches, hi]

theorem firstMatchUrl_str (interface : String) (eps : List Json)
    (hwf : ∀ ep ∈ eps, wfEp interface ep = true) (u : Json)
    (h : firstMatchUrl interface eps = some u) : ∃ us, u = .str us := by
  rw [firstMatchUrl] at h
  cases hf : eps.find? (epMatches interface) with
  | none => rw [hf] at h; simp at h
  | some ep =>
      rw [hf] at h
      simp only [Option.some_bind] at h
      have hmem : ep ∈ eps := List.mem_of_find?_eq_some hf
      have hmatch : epMatches interface ep = true := List.find?_some hf
      have hw := hwf ep hmem
      cases hi : ep.get "interface" with
      | none => simp [epMatches, hi] at hmatch
      | some i =>
          cases i with
          | str s =>
              have hs : s = interface := by simpa [epMatches, hi] using hmatch
              subst hs
              cases hu : ep.get "url" with
              | none => rw [hu] at h; exact absurd h (by simp)
              | some u2 =>
                  cases u2 with
                  | str us =>
                      rw [hu] at h
                      exact ⟨us, by injection h with h2; exact h2.symm⟩
                  | null => simp [wfEp, hi, hu] at hw
                  | bool b => simp [wfEp, hi, hu] at hw
                  | num n => simp [wfEp, hi, hu] at hw
                  | arr a => simp [wfEp, hi, hu] at hw
                  | obj f => simp [wfEp, hi, hu] at hw
          | null => simp [epMatches, hi] at hmatch
          | bool b => simp [epMatches, hi] at hmatch
          | num n => simp [epMatches, hi] at hmatch
          | arr a => simp [epMatches, hi] at hmatch
          | obj f => simp [epMatches, hi] at hmatch

theorem takeWhile_boundary {p : Char → Bool} (l : List Char) (c : Char) (suffix : List Char)
    (hl : ∀ x ∈ l, p x = true) (hc : p c = false) :
    (l ++ c :: suffix).takeWhile p = l := by
  induction l with
  | nil => simp [List.takeWhile, hc]
  | cons a as ih =>
      have ha : p a = true := hl a (List.mem_cons_self a as)
      have has : ∀ x ∈ as, p x = true := fun x hm => hl x (List.mem_cons_of_mem _ hm)
      simp [List.takeWhile, ha, ih has]

theorem splitFirst_at_boundary (scheme tail : List Char) (hs : ':' ∉ scheme) :
    splitFirst "://".toList (scheme ++ "://".toList ++ tail) = some (scheme, tail) := by
  induction scheme with
  | nil =>
      have hpre : ("://".toList).isPrefixOf ("://".toList ++ tail) = true :=
        List.isPrefixOf_iff_prefix.mpr (List.prefix_append _ _)
      simp only [List.nil_append]
      rw [show ("://".toList ++ tail : List Char) =
          ':' :: ('/' :: ('/' :: tail)) from rfl] at hpre ⊢
      rw [splitFirst, if_pos hpre]
      simp
  | cons c cs ih =>
      have hc : c ≠ ':' := fun h => hs (h ▸ List.mem_cons_self c cs)
      have hcs : ':' ∉ cs := fun h => hs (List.mem_cons_of_mem _ h)
      have hnp : ("://".toList).isPrefixOf (c :: (cs ++ "://".toList ++ tail)) = false := by
        rw [show ("://".toList : List Char) = ':' :: ('/' :: ('/' :: [])) from rfl]
        simp [List.isPrefixOf, Ne.symm hc]
      simp only [List.cons_append]
      rw [splitFirst, hnp]
      simp only [Bool.false_eq_true, if_false]
      rw [ih hcs]

theorem stripUrlPath_strips (scheme netloc rest : List Char)
    (hs : ':' ∉ scheme)
    (hn : ∀ c ∈ netloc, (c != '/' && c != '?' && c != '#') = true)
    (hr : ∀ c ∈ rest, (c != '?' && c != '#') = true) :
    stripUrlPath (String.mk (scheme ++ "://".toList ++ netloc ++ '/' :: rest)) =
      String.mk (scheme ++ "://".toList ++ netloc) := by
  have hsplit : splitFirst "://".toList
      (String.mk (scheme ++ "://".toList ++ netloc ++ '/' :: rest)).toList =
      some (scheme, netloc ++ '/' :: rest) := by
    have hshape : (String.mk (scheme ++ "://".toList ++ netloc ++ '/' :: rest)).toList =
        scheme ++ "://".toList ++ (netloc ++ '/' :: rest) := by
      show scheme ++ "://".toList ++ netloc ++ '/' :: rest =
        scheme ++ "://".toList ++ (netloc ++ '/' :: rest)
      simp [List.append_assoc]
    rw [hshape]
    exact splitFirst_at_boundary scheme (netloc ++ '/' :: rest) hs
  have h1 : (netloc ++ '/' :: rest).takeWhile
      (fun c => c != '/' && c != '?' && c != '#') = netloc :=
    takeWhile_boundary netloc '/' rest hn (by decide)
  have h2 : (('/' :: rest).dropWhile (fun c => c != '?' && c != '#')) = [] := by
    have hstep : (('/' :: rest).dropWhile (fun c => c != '?' && c != '#')) =
        rest.dropWhile (fun c => c != '?' && c != '#') := rfl
    rw [hstep]
    exact List.dropWhile_eq_nil_iff.mpr hr
  rw [stripUrlPath, hsplit]
  simp only [h1, List.drop_left, h2, List.append_nil]

theorem extractEndpoints_lookup (interface t : String) :
    ∀ (catalog : List Json) (acc : List (String × String)),
      (∀ e ∈ catalog, wfEntry interface e = true) →
      Except.map (fun E => lookupAssoc E t) (extractEndpoints interface catalog acc) =
        .ok (match catalog.reverse.find? (entryContributes interface t) with
             | some e => entryMatchUrl interface e
             | none => lookupAssoc acc t) := by
  intro catalog
  induction catalog with
  | nil => intro acc _; rfl
  | cons entry rest ih =>
      intro acc hwf
      have hent : wfEntry interface entry = true := hwf entry (List.mem_cons_self entry rest)
      have hrest : ∀ e ∈ rest, wfEntry interface e = true :=
        fun e hm => hwf e (List.mem_cons_of_mem _ hm)
      have heps : ∃ eps, entry.get "endpoints" = some (.arr eps) ∧
          ∀ ep ∈ eps, wfEp interface ep = true := by
        cases hg : entry.get "endpoints" with
        | none => simp [wfEntry, hg] at hent
        | some v =>
            cases v with
            | arr eps =>
                refine ⟨eps, rfl, fun ep hm => ?_⟩
                simp only [wfEntry, hg, Bool.and_eq_true] at hent
                exact List.all_eq_true.mp hent.1 ep hm
            | null => simp [wfEntry, hg] at hent
            | bool b => simp [wfEntry, hg] at hent
            | num n => simp [wfEntry, hg] at hent
            | str s => simp [wfEntry, hg] at hent
            | obj f => simp [wfEntry, hg] at hent
      have htype : ∃ ts, entry.get "type" = some (.str ts) := by
        cases hg : entry.get "type" with
        | none => simp [wfEntry, hg] at hent
        | some v =>
            cases v with
            | str ts => exact ⟨ts, rfl⟩
            | null => simp [wfEntry, hg] at hent
            | bool b => simp [wfEntry, hg] at hent
            | num n => simp [wfEntry, hg] at hent
            | arr a => simp [wfEntry, hg] at hent
            | obj f => simp [wfEntry, hg] at hent
      obtain ⟨eps, hgE, hwfE⟩ := heps
      obtain ⟨ts, hgT⟩ := htype
      have hfind := findInterfaceUrl_eq_firstMatch interface eps hwfE
      cases hfm : firstMatchUrl interface eps with
      | none =>
          have hstep : extractEndpoints interface (entry :: rest) acc =
              extractEndpoints interface rest acc := by
            simp [extractEndpoints, getItem_of_get hgE, hfind, hfm]
          rw [hstep, ih acc hrest]
          have hpred : entryContributes interface t entry = false := by
            simp [entryContributes, entryMatchUrl, hgE, hfm]
          rw [List.reverse_cons, List.find?_append]
          cases hf : rest.reverse.find? (entryContributes interface t) with
          | some e' => simp [hf]
          | none => simp [hf, List.find?_cons, hpred]
      | some u =>
          obtain ⟨us, hus⟩ := firstMatchUrl_str interface eps hwfE u hfm
          subst hus
          have hstep : extractEndpoints interface (entry :: rest) acc =
              extractEndpoints interface rest (updateAssoc acc ts (stripUrlPath us)) := by
            simp [extractEndpoints, getItem_of_get hgE, hfind, hfm, getItem_of_get hgT]
          rw [hstep, ih (updateAssoc acc ts (stripUrlPath us)) hrest]
          have hmu : entryMatchUrl interface entry = some (stripUrlPath us) := by
            simp [entryMatchUrl, hgE, hfm]
          rw [List.reverse_cons, List.find?_append]
          cases hf : rest.reverse.find? (entryContributes interface t) with
          | some e' => simp [hf]
          | none =>
              by_cases hts : ts = t
              · subst hts
                have hht : entryContributes interface ts entry = true := by
                  simp [entryContributes, entryHasType, hgT, hmu]
                simp [hf, List.find?_cons, hht, hmu, lookupAssoc_updateAssoc_self]
              · have hht : entryContributes interface t entry = false := by
                  simp [entryContributes, entryHasType, hgT, hts]
                simp [hf, List.find?_cons, hht,
                      lookupAssoc_updateAssoc_other acc ts t (stripUrlPath us)
                        (fun h => hts h.symm)]

/-- C6: for every well-formed authentication catalog, Connection
construction stores, per catalog entry, the URL of the (first) endpoint
whose interface tag matches the configured interface, path-stripped so
only scheme/host/port (plus any query/fragment) remain, keyed by the
entry's service type (later entries of a type overwrite earlier ones, as
dict assignment does); an entry with no matching endpoint is skipped
without error, so a type no entry of which matches is omitted from
endpoints entirely (the lookup characterization yields none when no
contributing entry exists). -/
theorem connection_catalog_endpoint_selection (interface : String) (catalog : List Json)
    (hwf : ∀ e ∈ catalog, wfEntry interface e = true) :
    (∀ t, Except.map (fun E => lookupAssoc E t) (extractEndpoints interface catalog []) =
      .ok (match catalog.reverse.find? (entryContributes interface t) with
           | some e => entryMatchUrl interface e
           | none => none)) ∧
    (∀ scheme netloc rest : List Char, ':' ∉ scheme →
      (∀ c ∈ netloc, (c != '/' && c != '?' && c != '#') = true) →
      (∀ c ∈ rest, (c != '?' && c != '#') = true) →
      stripUrlPath (String.mk (scheme ++ "://".toList ++ netloc ++ '/' :: rest)) =
        String.mk (scheme ++ "://".toList ++ netloc)) := by
  constructor
  · intro t
    exact extractEndpoints_lookup interface t catalog [] hwf
  · intro scheme netloc rest h1 h2 h3
    exact stripUrlPath_strips scheme netloc rest h1 h2 h3

/-- Witness for C6 at a catalog holding two compute entries on different
interfaces: only the public endpoint is stored, path-stripped; a type
with no entry is absent. -/
theorem connection_catalog_endpoint_selection_witness :
    Except.map (fun E => lookupAssoc E "compute")
      (extractEndpoints "public"
        [.obj [("type", .str "compute"), ("endpoints", .arr
           [.obj [("interface", .str "internal"), ("url", .str "http://int:8774/v2")]])],
         .obj [("type", .str "compute"), ("endpoints", .arr
           [.obj [("interface", .str "public"), ("url", .str "http://pub:8774/v2")]])]] []) =
      .ok (some "http://pub:8774") ∧
    Except.map (fun E => lookupAssoc E "identity")
      (extractEndpoints "public"
        [.obj [("type", .str "compute"), ("endpoints", .arr
           [.obj [("interface", .str "internal"), ("url", .str "http://int:8774/v2")]])],
         .obj [("type", .str "compute"), ("endpoints", .arr
           [.obj [("interface", .str "public"), ("url", .str "http://pub:8774/v2")]])]] []) =
      .ok none ∧
    stripUrlPath "http://pub:8774/v2" = "http://pub:8774" :=
  ⟨(connection_catalog_endpoint_selection "public"
      [.obj [("type", .str "compute"), ("endpoints", .arr
         [.obj [("interface", .str "internal"), ("url", .str "http://int:8774/v2")]])],
       .obj [("type", .str "compute"), ("endpoints", .arr
         [.obj [("interface", .str "public"), ("url", .str "http://pub:8774/v2")]])]]
      (by decide)).1 "compute",
   (connection_catalog_endpoint_selection "public"
      [.obj [("type", .str "compute"), ("endpoints", .arr
         [.obj [("interface", .str "internal"), ("url", .str "http://int:8774/v2")]])],
       .obj [("type", .str "compute"), ("endpoints", .arr
         [.obj [("interface", .str "public"), ("url", .str "http://pub:8774/v2")]])]]
      (by decide)).1 "identity",
   (connection_catalog_endpoint_selection "public" [] (by simp)).2
     "http".toList "pub:8774".toList "v2".toList
     (by decide) (by decide) (by decide)⟩

theorem connection_init_ok (auth_url : String) (params : AuthParams)
    (interface : String) (verify : Bool) (r : AuthResponse)
    (tok user name : Json) (project project_id : Option Json)
    (entries : List Json) (E : List (String × String))
    (h1 : r.body.getItem "token" = .ok tok)
    (h2 : tok.getItem "user" = .ok user)
    (h3 : user.getItem "name" = .ok name)
    (h4 : tok.attrGet "project" = .ok project)
    (h5 : (project.getD (.obj [])).attrGet "id" = .ok project_id)
    (h6 : (tok.get "catalog").getD (.arr []) = .arr entries)
    (h7 : extractEndpoints interface entries [] = .ok E) :
    Connection.init auth_url params interface verify (.ok r) =
      .ok ⟨rstripChar auth_url '/', params, interface, verify, r.subject_token,
           name, project_id, E⟩ := by
  simp [Connection.init, h1, h2, h3, h4, h5, h6, h7]

/-- C5: a Connection construction whose authentication POST raises the
transport's ApiError (non-2xx) closes the session and re-raises the same
error unchanged, producing no connection value; on a successful, well-
formed handshake all of token, username, optional project_id, and
endpoints are populated in the returned connection — construction is
all-or-nothing (the result is either a fully-populated state or a
propagated failure, never a partial state). -/
theorem connection_all_or_nothing :
    (∀ (auth_url : String) (params : AuthParams) (interface : String) (verify : Bool)
        (status : Nat),
      Connection.init auth_url params interface verify (.error (.apiError status)) =
        .failed (.apiError status) true) ∧
    (∀ (auth_url : String) (params : AuthParams) (interface : String) (verify : Bool)
        (r : AuthResponse) (tok user name : Json) (project project_id : Option Json)
        (entries : List Json) (E : List (String × String)),
      r.body.getItem "token" = .ok tok →
      tok.getItem "user" = .ok user →
      user.getItem "name" = .ok name →
      tok.attrGet "project" = .ok project →
      (project.getD (.obj [])).attrGet "id" = .ok project_id →
      (tok.get "catalog").getD (.arr []) = .arr entries →
      extractEndpoints interface entries [] = .ok E →
      Connection.init auth_url params interface verify (.ok r) =
        .ok ⟨rstripChar auth_url '/', params, interface, verify, r.subject_token,
             name, project_id, E⟩) :=
  ⟨fun _ _ _ _ _ => rfl,
   fun a p i v r tok user name proj pid entries E h1 h2 h3 h4 h5 h6 h7 =>
     connection_init_ok a p i v r tok user name proj pid entries E h1 h2 h3 h4 h5 h6 h7⟩

/-- Witness for C5: a concrete failed handshake closes the session and
propagates the same ApiError; a concrete successful handshake populates
every field. -/
theorem connection_all_or_nothing_witness :
    Connection.init "http://ks:5000/" ⟨[]⟩ "public" true (.error (.apiError 401)) =
      .failed (.apiError 401) true ∧
    Connection.init "http://ks:5000/" ⟨[]⟩ "public" true
      (.ok ⟨"tok123", .obj [("token", .obj
        [("user", .obj [("name", .str "alice")]),
         ("project", .obj [("id", .str "p1")]),
         ("catalog", .arr [.obj [("type", .str "compute"), ("endpoints", .arr
           [.obj [("interface", .str "public"),
                  ("url", .str "http://pub:8774/v2")]])]])])]⟩) =
      .ok ⟨rstripChar "http://ks:5000/" '/', ⟨[]⟩, "public", true, "tok123",
           .str "alice", some (.str "p1"), [("compute", "http://pub:8774")]⟩ :=
  ⟨connection_all_or_nothing.1 "http://ks:5000/" ⟨[]⟩ "public" true 401,
   connection_all_or_nothing.2 "http://ks:5000/" ⟨[]⟩ "public" true
     ⟨"tok123", .obj [("token", .obj
        [("user", .obj [("name", .str "alice")]),
         ("project", .obj [("id", .str "p1")]),
         ("catalog", .arr [.obj [("type", .str "compute"), ("endpoints", .arr
           [.obj [("interface", .str "public"),
                  ("url", .str "http://pub:8774/v2")]])]])])]⟩
     (.obj [("user", .obj [("name", .str "alice")]),
            ("project", .obj [("id", .str "p1")]),
            ("catalog", .arr [.obj [("type", .str "compute"), ("endpoints", .arr
              [.obj [("interface", .str "public"),
                     ("url", .str "http://pub:8774/v2")]])]])])
     (.obj [("name", .str "alice")]) (.str "alice")
     (some (.obj [("id", .str "p1")])) (some (.str "p1"))
     [.obj [("type", .str "compute"), ("endpoints", .arr
       [.obj [("interface", .str "public"), ("url", .str "http://pub:8774/v2")]])]]
     [("compute", "http://pub:8774")]
     rfl rfl rfl rfl rfl rfl rfl⟩

/-- C9: scoped_connection accepts a raw project identifier or a Resource
exposing an id, builds AuthParams via use_token(current
token).use_project_id(project_id) — whose wire dict is exactly the
identity and scope sub-trees — and constructs a brand-new Connection
whose auth_url, interface and verify are copied from the parent; assuming
the identity service echoes the requested scope
(token.project.id equals the supplied id, hypothesis h5), the resulting
connection's project_id equals the supplied project identifier. The
parent's stored auth_url carries no trailing slash (hypothesis hurl, true
of every Connection the constructor builds), so re-stripping leaves it
unchanged. -/
theorem scoped_connection_copies_scope (parent : ConnectionState) (p : ProjectOrId)
    (r : AuthResponse) (tok user name : Json) (project : Option Json)
    (entries : List Json) (E : List (String × String))
    (hurl : rstripChar parent.auth_url '/' = parent.auth_url)
    (h1 : r.body.getItem "token" = .ok tok)
    (h2 : tok.getItem "user" = .ok user)
    (h3 : user.getItem "name" = .ok name)
    (h4 : tok.attrGet "project" = .ok project)
    (h5 : (project.getD (.obj [])).attrGet "id" = .ok (some (.str p.project_id)))
    (h6 : (tok.get "catalog").getD (.arr []) = .arr entries)
    (h7 : extractEndpoints parent.interface entries [] = .ok E) :
    Connection.scoped_connection parent p (.ok r) =
      .ok ⟨parent.auth_url,
           (AuthParams.empty.use_token parent.token).use_project_id p.project_id,
           parent.interface, parent.verify, r.subject_token, name,
           some (.str p.project_id), E⟩ ∧
    ((AuthParams.empty.use_token parent.token).use_project_id p.project_id).as_dict =
      [("identity", tokenIdentity parent.token), ("scope", projectScope p.project_id)] := by
  constructor
  · rw [Connection.scoped_connection,
        connection_init_ok parent.auth_url
          ((AuthParams.empty.use_token parent.token).use_project_id p.project_id)
          parent.interface parent.verify r tok user name project
          (some (.str p.project_id)) entries E h1 h2 h3 h4 h5 h6 h7,
        hurl]
  · rfl

/-- Witness for C9 at a concrete parent and a Resource-shaped project
argument whose handshake echoes the requested scope. -/
theorem scoped_connection_copies_scope_witness :
    Connection.scoped_connection
      ⟨"http://ks:5000", ⟨[]⟩, "public", true, "tok123", .str "alice", none, []⟩
      (.resource "p42")
      (.ok ⟨"tok999", .obj [("token", .obj
        [("user", .obj [("name", .str "alice")]),
         ("project", .obj [("id", .str "p42")])])]⟩) =
      .ok ⟨"http://ks:5000",
           (AuthParams.empty.use_token "tok123").use_project_id "p42",
           "public", true, "tok999", .str "alice", some (.str "p42"), []⟩ ∧
    ((AuthParams.empty.use_token "tok123").use_project_id "p42").as_dict =
      [("identity", tokenIdentity "tok123"), ("scope", projectScope "p42")] :=
  scoped_connection_copies_scope
    ⟨"http://ks:5000", ⟨[]⟩, "public", true, "tok123", .str "alice", none, []⟩
    (.resource "p42")
    ⟨"tok999", .obj [("token", .obj
      [("user", .obj [("name", .str "alice")]),
       ("project", .obj [("id", .str "p42")])])]⟩
    (.obj [("user", .obj [("name", .str "alice")]),
           ("project", .obj [("id", .str "p42")])])
    (.obj [("name", .str "alice")]) (.str "alice")
    (some (.obj [("id", .str "p42")])) [] []
    rfl rfl rfl rfl rfl rfl rfl rfl
